import Mathlib

/-!
Shallow embedding of the Flappy Plane game logic (`flappyplane.js`).

Positions and velocities are embedded as rationals (`ℚ`), scores and frame
counters as naturals.  The browser collaborators (canvas, DOM, localStorage)
are modelled by explicit state fields: the two persisted best-score values
become the fields `storedBest` (key `flappyPlaneBestScore`) and
`storedPlayerBest` (key `flappyPlaneBestScore_<player>`), and `writes` counts
`localStorage.setItem` calls.  Rendering is pure output and is not modelled.
-/

namespace FlappyPlane

/-- `const CANVAS_WIDTH = 400`. -/
def CANVAS_WIDTH : ℚ := 400

/-- `const CANVAS_HEIGHT = 600`. -/
def CANVAS_HEIGHT : ℚ := 600

/-- `const PIPE_WIDTH = 50`. -/
def PIPE_WIDTH : ℚ := 50

/-- `const PIPE_GAP = 140`. -/
def PIPE_GAP : ℚ := 140

/-- `const PIPE_SPEED = 3`. -/
def PIPE_SPEED : ℚ := 3

/-- `const PIPE_SPAWN_INTERVAL = 90` (frames between pipe spawns). -/
def PIPE_SPAWN_INTERVAL : ℕ := 90

/-- `const GRAVITY = 0.3`. -/
def GRAVITY : ℚ := 0.3

/-- `const JUMP_VELOCITY = -6`. -/
def JUMP_VELOCITY : ℚ := -6

/-- The `Plane` object: position, fixed size, velocity and display tilt. -/
structure Plane where
  x : ℚ
  y : ℚ
  width : ℚ
  height : ℚ
  velocity : ℚ
  tilt : ℚ
  deriving DecidableEq

/-- `new Plane()`: `x = 50`, `y = CANVAS_HEIGHT / 2`, `width = 40`,
`height = 30`, `velocity = 0`, `tilt = 0`. -/
def Plane.init : Plane :=
  { x := 50, y := CANVAS_HEIGHT / 2, width := 40, height := 30,
    velocity := 0, tilt := 0 }

/-- `Plane.update()`: apply gravity, move, compute tilt, then run the ground
check followed by the ceiling check (in the source's order).  The returned
boolean records whether the ground branch fired, i.e. whether the source
reached the `if (!isGameOver) gameOver();` call site. -/
def Plane.update (p : Plane) : Plane × Bool :=
  let v := p.velocity + GRAVITY
  let y1 := p.y + v
  let t := min (max (-20) (v * 4)) 45
  let y2 := if y1 + p.height > CANVAS_HEIGHT - 30 then CANVAS_HEIGHT - 30 - p.height else y1
  let v2 := if y1 + p.height > CANVAS_HEIGHT - 30 then 0 else v
  let y3 := if y2 < 0 then 0 else y2
  let v3 := if y2 < 0 then 0 else v2
  ({ p with y := y3, velocity := v3, tilt := t },
    decide (y1 + p.height > CANVAS_HEIGHT - 30))

/-- `Plane.jump()`: `this.velocity = JUMP_VELOCITY`. -/
def Plane.jump (p : Plane) : Plane :=
  { p with velocity := JUMP_VELOCITY }

/-- The `Obstacle` object (a pipe pair). -/
structure Obstacle where
  x : ℚ
  width : ℚ
  passed : Bool
  topHeight : ℚ
  bottomY : ℚ
  bottomHeight : ℚ
  deriving DecidableEq

/-- `new Obstacle()`, with the value of `Math.random()` passed explicitly as
`r`: `topHeight = Math.floor(r * (maxTopHeight - minTopHeight + 1)) +
minTopHeight`, `bottomY = topHeight + PIPE_GAP`,
`bottomHeight = CANVAS_HEIGHT - bottomY - 30`. -/
def mkObstacle (r : ℚ) : Obstacle :=
  let minTopHeight : ℚ := 50
  let maxTopHeight : ℚ := CANVAS_HEIGHT - 50 - PIPE_GAP - 30
  let topHeight : ℚ := ((⌊r * (maxTopHeight - minTopHeight + 1)⌋ : ℤ) : ℚ) + minTopHeight
  let bottomY : ℚ := topHeight + PIPE_GAP
  { x := CANVAS_WIDTH, width := PIPE_WIDTH, passed := false,
    topHeight := topHeight, bottomY := bottomY,
    bottomHeight := CANVAS_HEIGHT - bottomY - 30 }

/-- `Obstacle.update()`: `this.x -= PIPE_SPEED`. -/
def Obstacle.update (o : Obstacle) : Obstacle :=
  { o with x := o.x - PIPE_SPEED }

/-- The module-level game state, together with the persisted best-score store
and a counter of `localStorage.setItem` calls. -/
structure GState where
  plane : Plane
  obstacles : List Obstacle
  score : ℕ
  bestScore : ℕ
  storedBest : ℕ
  storedPlayerBest : ℕ
  isGameOver : Bool
  frameCount : ℕ
  writes : ℕ
  deriving DecidableEq

/-- Page-load state: `bestScore` is read from the global key, the per-player
value from the player key, `isGameOver = true`, everything else empty. -/
def initState (storedBest storedPlayerBest : ℕ) : GState :=
  { plane := Plane.init, obstacles := [], score := 0,
    bestScore := storedBest, storedBest := storedBest,
    storedPlayerBest := storedPlayerBest,
    isGameOver := true, frameCount := 0, writes := 0 }

/-- `gameOver()`: early return when already over; otherwise set `isGameOver`,
and when `score > bestScore` update `bestScore` and persist it under both the
global and the per-player key (two `setItem` calls). -/
def gameOver (s : GState) : GState :=
  if s.isGameOver then s
  else
    let s1 := { s with isGameOver := true }
    if s1.bestScore < s1.score then
      { s1 with
        bestScore := s1.score, storedBest := s1.score,
        storedPlayerBest := s1.score, writes := s1.writes + 2 }
    else s1

/-- The scoring branch of the `checkCollision` loop body:
`if (p.x > obs.x + obs.width && !obs.passed) { score++; obs.passed = true; }`. -/
def scoreStep (p : Plane) (o : Obstacle) (sc : ℕ) : Obstacle × ℕ :=
  if p.x > o.x + o.width ∧ o.passed = false then
    ({ o with passed := true }, sc + 1)
  else (o, sc)

/-- The `for (const obs of obstacles)` loop of `checkCollision`: threads the
score through the list, stops (returning `true`) at the first obstacle whose
AABB test reports a pipe collision, and otherwise applies the scoring branch
to each obstacle. -/
def checkCollisionAux (p : Plane) : List Obstacle → ℕ → List Obstacle × ℕ × Bool
  | [], sc => ([], sc, false)
  | o :: rest, sc =>
    if (p.x + p.width > o.x ∧ p.x < o.x + o.width) ∧
        (p.y < o.topHeight ∨ p.y + p.height > o.bottomY) then
      (o :: rest, sc, true)
    else
      let os := scoreStep p o sc
      let r := checkCollisionAux p rest os.2
      (os.1 :: r.1, r.2.1, r.2.2)

/-- `checkCollision()` at the game-state level: run the loop, and at the
collision stop point call `gameOver()` (which reads the score accumulated so
far, exactly as the in-loop call does). -/
def checkCollision (s : GState) : GState :=
  let r := checkCollisionAux s.plane s.obstacles s.score
  let s1 := { s with obstacles := r.1, score := r.2.1 }
  if r.2.2 then gameOver s1 else s1

/-- The `plane.update()` call inside `update()`: run the plane physics and,
when the ground branch fired, the `if (!isGameOver) gameOver();` trigger. -/
def tickPlane (s : GState) : GState :=
  let pu := Plane.update s.plane
  let s1 := { s with plane := pu.1 }
  if pu.2 && !s1.isGameOver then gameOver s1 else s1

/-- The spawn step of `update()`:
`if (frameCount % PIPE_SPAWN_INTERVAL === 0) spawnObstacle();` where
`spawnObstacle()` pushes `new Obstacle()` (with random draw `rnd`). -/
def spawnStep (rnd : ℚ) (s : GState) : GState :=
  if s.frameCount % PIPE_SPAWN_INTERVAL = 0 then
    { s with obstacles := s.obstacles ++ [mkObstacle rnd] }
  else s

/-- `frameCount++`. -/
def incFrame (s : GState) : GState :=
  { s with frameCount := s.frameCount + 1 }

/-- The obstacle loop of `update()`: every obstacle moves left by
`PIPE_SPEED`, and obstacles with `obs.x + obs.width < 0` are spliced out.
(The source iterates backwards with `splice`; since every element is updated
and removal is decided per element, this equals a map followed by an
order-preserving filter.) -/
def moveObstacles (s : GState) : GState :=
  { s with
    obstacles :=
      (s.obstacles.map Obstacle.update).filter
        (fun o => !decide (o.x + o.width < 0)) }

/-- `update()`: early return when game over; otherwise plane physics (with the
ground game-over trigger), obstacle spawning at the fixed frame interval, the
frame-counter increment, obstacle movement with removal of fully off-screen
obstacles, and the collision/scoring pass — in the source's order. -/
def update (rnd : ℚ) (s : GState) : GState :=
  if s.isGameOver then s
  else checkCollision (moveObstacles (incFrame (spawnStep rnd (tickPlane s))))

/-- `setup()`: fresh plane, empty obstacle list, zero score and frame counter,
leave Game Over state.  (The restart button is display only.) -/
def setup (s : GState) : GState :=
  { s with
    plane := Plane.init, obstacles := [], score := 0,
    frameCount := 0, isGameOver := false }

/-- `startGame()`: cancel the pending animation frame (no modelled state) and
run `setup()`. -/
def startGame (s : GState) : GState := setup s

/-- `handleInput()`: restart when the game is over, otherwise jump. -/
def handleInput (s : GState) : GState :=
  if s.isGameOver then startGame s else { s with plane := s.plane.jump }

/-- States reachable from a start/restart by any sequence of per-frame
updates (with arbitrary random draws) and input events. -/
inductive Reach : GState → Prop
  | start (s : GState) : Reach (startGame s)
  | frame (rnd : ℚ) {s : GState} : Reach s → Reach (update rnd s)
  | input {s : GState} : Reach s → Reach (handleInput s)

/-! ### Basic projection lemmas -/

theorem Plane.update_snd (p : Plane) :
    (Plane.update p).2 =
      decide (p.y + (p.velocity + GRAVITY) + p.height > CANVAS_HEIGHT - 30) := rfl

theorem gameOver_isGameOver (s : GState) : (gameOver s).isGameOver = true := by
  unfold gameOver
  dsimp only
  split_ifs with h h2
  · exact h
  · rfl
  · rfl

theorem gameOver_obstacles (s : GState) : (gameOver s).obstacles = s.obstacles := by
  unfold gameOver
  dsimp only
  split_ifs <;> rfl

theorem gameOver_frameCount (s : GState) : (gameOver s).frameCount = s.frameCount := by
  unfold gameOver
  dsimp only
  split_ifs <;> rfl

theorem checkCollision_isGameOver_true (s : GState) (h : s.isGameOver = true) :
    (checkCollision s).isGameOver = true := by
  unfold checkCollision
  dsimp only
  split_ifs
  · exact gameOver_isGameOver _
  · exact h

theorem spawnStep_isGameOver (rnd : ℚ) (s : GState) :
    (spawnStep rnd s).isGameOver = s.isGameOver := by
  unfold spawnStep
  split_ifs <;> rfl

theorem tickPlane_isGameOver_of_ground (s : GState) (hgo : s.isGameOver = false)
    (hg : (Plane.update s.plane).2 = true) : (tickPlane s).isGameOver = true := by
  unfold tickPlane
  simp only [hg, hgo]
  simp [gameOver_isGameOver]

/-! ### C9 -/

/-- C9: `startGame` resets score to 0, the obstacle list to empty, the frame
counter to 0, the plane to its spawn position `(50, CANVAS_HEIGHT / 2)` with
velocity 0, and enters the Running state, regardless of the prior state. -/
theorem c9_restart_resets (s : GState) :
    (startGame s).score = 0 ∧ (startGame s).obstacles = [] ∧
    (startGame s).frameCount = 0 ∧ (startGame s).plane.x = 50 ∧
    (startGame s).plane.y = CANVAS_HEIGHT / 2 ∧
    (startGame s).plane.velocity = 0 ∧ (startGame s).isGameOver = false :=
  ⟨rfl, rfl, rfl, rfl, rfl, rfl, rfl⟩

/-! ### C5 -/

/-- C5: the game-over transition is idempotent — calling `gameOver` while the
state is already GameOver returns the state unchanged (same score, best
scores, persisted values and write count). -/
theorem c5_gameOver_idempotent (s : GState) (h : s.isGameOver = true) :
    gameOver s = s := by
  unfold gameOver
  simp [h]

/-- Witness for C5 at a concrete GameOver state. -/
theorem c5_gameOver_idempotent_witness :
    gameOver (initState 3 1) = initState 3 1 :=
  c5_gameOver_idempotent (initState 3 1) rfl

/-! ### C7 -/

/-- C7: `jump` sets the velocity to exactly `JUMP_VELOCITY = -6`, overwriting
the prior velocity; when the game is running an input means jump, and when the
game is over an input means restart, after which the plane's velocity is `0`
(in particular not the jump constant). -/
theorem c7_jump (p : Plane) (s : GState) :
    (p.jump).velocity = JUMP_VELOCITY ∧
    (s.isGameOver = false → (handleInput s).plane = s.plane.jump) ∧
    (s.isGameOver = true →
      (handleInput s).plane.velocity = 0 ∧
      (handleInput s).plane.velocity ≠ JUMP_VELOCITY) := by
  refine ⟨rfl, fun h => by simp [handleInput, h], fun h => ?_⟩
  simp only [handleInput, h]
  refine ⟨rfl, ?_⟩
  simp [startGame, setup, Plane.init, JUMP_VELOCITY]

/-- Witness for C7 at a concrete plane and a concrete GameOver state. -/
theorem c7_jump_witness :
    ((Plane.init.jump).velocity = JUMP_VELOCITY) ∧
    ((handleInput (initState 0 0)).plane.velocity = 0) := by
  refine ⟨(c7_jump Plane.init (initState 0 0)).1, ?_⟩
  exact ((c7_jump Plane.init (initState 0 0)).2.2 rfl).1

/-! ### C3 -/

/-- C3: after every plane update (the plane's height being the code's
constant 30), the new `y` lies in `[0, CANVAS_HEIGHT - 30 - 30]`, and whenever
either clamp fired (the post-gravity `y` was below `0` or past the floor
line), the resulting velocity is `0`. -/
theorem c3_plane_clamped (p : Plane) (hh : p.height = 30) :
    0 ≤ (Plane.update p).1.y ∧
    (Plane.update p).1.y ≤ CANVAS_HEIGHT - 30 - 30 ∧
    ((p.y + (p.velocity + GRAVITY) < 0 ∨
      p.y + (p.velocity + GRAVITY) + p.height > CANVAS_HEIGHT - 30) →
      (Plane.update p).1.velocity = 0) := by
  have h600 : CANVAS_HEIGHT = (600 : ℚ) := rfl
  rw [hh]
  simp only [Plane.update, hh]
  split_ifs with h1 h2 h2
  · exact absurd h2 (by rw [h600]; norm_num)
  · refine ⟨by rw [h600]; norm_num, by rw [h600], fun _ => rfl⟩
  · refine ⟨le_refl 0, by rw [h600]; norm_num, fun _ => rfl⟩
  · push_neg at h1 h2
    refine ⟨h2, by rw [h600] at h1 ⊢; linarith, fun hc => ?_⟩
    rcases hc with hc | hc
    · exact absurd hc (not_lt.mpr h2)
    · exact absurd hc (not_lt.mpr h1)

/-! ### C6 -/

/-- C6: ground contact is terminal, ceiling contact is not.  If the
post-gravity position crosses the floor line, the update snaps `y` to the
floor, zeroes the velocity and reports the ground hit (which, in a running
game state, makes the frame update end in GameOver); if it crosses the
ceiling, the update snaps `y` to `0` and zeroes the velocity without
reporting a terminal hit. -/
theorem c6_ground_terminal_ceiling_not (p : Plane) (hh : p.height = 30) :
    (p.y + (p.velocity + GRAVITY) + p.height > CANVAS_HEIGHT - 30 →
      (Plane.update p).1.y = CANVAS_HEIGHT - 30 - p.height ∧
      (Plane.update p).1.velocity = 0 ∧ (Plane.update p).2 = true) ∧
    (p.y + (p.velocity + GRAVITY) < 0 →
      (Plane.update p).1.y = 0 ∧
      (Plane.update p).1.velocity = 0 ∧ (Plane.update p).2 = false) ∧
    (∀ (rnd : ℚ) (s : GState), s.isGameOver = false → s.plane = p →
      p.y + (p.velocity + GRAVITY) + p.height > CANVAS_HEIGHT - 30 →
      (update rnd s).isGameOver = true) := by
  have h600 : CANVAS_HEIGHT = (600 : ℚ) := rfl
  refine ⟨fun hg => ?_, fun hc => ?_, fun rnd s hgo hpl hg => ?_⟩
  · simp only [Plane.update]
    split_ifs with h1
    · exact absurd h1 (by rw [h600, hh]; norm_num)
    · exact ⟨rfl, rfl, decide_eq_true hg⟩
  · have hng : ¬ (p.y + (p.velocity + GRAVITY) + p.height > CANVAS_HEIGHT - 30) := by
      rw [h600, hh]
      intro habs
      linarith
    simp only [Plane.update]
    split_ifs
    exact ⟨rfl, rfl, decide_eq_false hng⟩
  · have hflag : (Plane.update s.plane).2 = true := by
      rw [hpl, Plane.update_snd]
      exact decide_eq_true hg
    have htick : (tickPlane s).isGameOver = true :=
      tickPlane_isGameOver_of_ground s hgo hflag
    unfold update
    rw [hgo]
    simp only [Bool.false_eq_true, if_false]
    apply checkCollision_isGameOver_true
    show (spawnStep rnd (tickPlane s)).isGameOver = true
    rw [spawnStep_isGameOver]
    exact htick

/-- Witness for C3 at the spawn plane. -/
theorem c3_plane_clamped_witness :
    0 ≤ (Plane.update Plane.init).1.y ∧
    (Plane.update Plane.init).1.y ≤ CANVAS_HEIGHT - 30 - 30 := by
  have h := c3_plane_clamped Plane.init rfl
  exact ⟨h.1, h.2.1⟩

/-- Witness for C6 at a concrete plane over the floor line. -/
theorem c6_ground_terminal_ceiling_not_witness :
    (Plane.update { Plane.init with y := 560 }).1.y = CANVAS_HEIGHT - 30 - 30 ∧
    (Plane.update { Plane.init with y := 560 }).1.velocity = 0 ∧
    (Plane.update { Plane.init with y := 560 }).2 = true := by
  have h := (c6_ground_terminal_ceiling_not { Plane.init with y := 560 } rfl).1
    (by norm_num [Plane.init, GRAVITY, CANVAS_HEIGHT])
  exact ⟨h.1, h.2.1, h.2.2⟩

/-! ### C8 -/

/-- C8: for every random draw `r ∈ [0, 1)`, a fresh obstacle has
`50 ≤ topHeight ≤ 380`, its `bottomHeight` is the derived
`CANVAS_HEIGHT - (topHeight + PIPE_GAP) - 30`, and that value is
non-negative, so the gap lies inside the playfield. -/
theorem c8_topHeight_bounds (r : ℚ) (h0 : 0 ≤ r) (h1 : r < 1) :
    50 ≤ (mkObstacle r).topHeight ∧ (mkObstacle r).topHeight ≤ 380 ∧
    (mkObstacle r).bottomHeight =
      CANVAS_HEIGHT - ((mkObstacle r).topHeight + PIPE_GAP) - 30 ∧
    0 ≤ (mkObstacle r).bottomHeight := by
  have harg : (CANVAS_HEIGHT - 50 - PIPE_GAP - 30 - 50 + 1 : ℚ) = 331 := by
    norm_num [CANVAS_HEIGHT, PIPE_GAP]
  have hT : (mkObstacle r).topHeight = ((⌊r * 331⌋ : ℤ) : ℚ) + 50 := by
    show ((⌊r * (CANVAS_HEIGHT - 50 - PIPE_GAP - 30 - 50 + 1)⌋ : ℤ) : ℚ) + 50 = _
    rw [harg]
  have hfl0 : (0 : ℤ) ≤ ⌊r * 331⌋ := Int.floor_nonneg.mpr (by positivity)
  have hfl1 : ⌊r * 331⌋ ≤ 330 := by
    have h : ⌊r * 331⌋ < 331 := by
      rw [Int.floor_lt]
      push_cast
      nlinarith
    omega
  have hq0 : (0 : ℚ) ≤ ((⌊r * 331⌋ : ℤ) : ℚ) := by exact_mod_cast hfl0
  have hq1 : ((⌊r * 331⌋ : ℤ) : ℚ) ≤ 330 := by exact_mod_cast hfl1
  have hB : (mkObstacle r).bottomHeight =
      CANVAS_HEIGHT - ((mkObstacle r).topHeight + PIPE_GAP) - 30 := rfl
  refine ⟨by rw [hT]; linarith, by rw [hT]; linarith, hB, ?_⟩
  rw [hB, hT]
  have : CANVAS_HEIGHT = (600 : ℚ) := rfl
  rw [this]
  have : PIPE_GAP = (140 : ℚ) := rfl
  rw [this]
  linarith

/-- Witness for C8 at `r = 1/2`. -/
theorem c8_topHeight_bounds_witness :
    50 ≤ (mkObstacle (1/2)).topHeight ∧ (mkObstacle (1/2)).topHeight ≤ 380 :=
  ⟨(c8_topHeight_bounds (1/2) (by norm_num) (by norm_num)).1,
   (c8_topHeight_bounds (1/2) (by norm_num) (by norm_num)).2.1⟩

/-! ### C2 -/

theorem checkCollisionAux_collided_iff (p : Plane) (l : List Obstacle) (sc : ℕ) :
    (checkCollisionAux p l sc).2.2 = true ↔
      ∃ o ∈ l, (p.x + p.width > o.x ∧ p.x < o.x + o.width) ∧
        (p.y < o.topHeight ∨ p.y + p.height > o.bottomY) := by
  induction l generalizing sc with
  | nil => simp [checkCollisionAux]
  | cons o rest ih =>
    by_cases h : (p.x + p.width > o.x ∧ p.x < o.x + o.width) ∧
        (p.y < o.topHeight ∨ p.y + p.height > o.bottomY)
    · simp only [checkCollisionAux, if_pos h]
      simp [h]
    · simp only [checkCollisionAux, if_neg h]
      simp only [List.mem_cons]
      constructor
      · intro hc
        rcases (ih _).mp hc with ⟨o', ho', hcol⟩
        exact ⟨o', Or.inr ho', hcol⟩
      · rintro ⟨o', ho' | ho', hcol⟩
        · exact absurd (ho' ▸ hcol) h
        · exact (ih _).mpr ⟨o', ho', hcol⟩

/-- C2: the per-frame pipe-collision pass reports a terminal collision iff
some live obstacle overlaps the plane horizontally and the plane's top edge is
above the top pipe's bottom edge or its bottom edge is below the bottom pipe's
top (the code's AABB test); when the head obstacle collides, processing stops
with the list and score untouched, and the collision verdict drives the state
to GameOver.  In particular a plane at `x = 50` of width `40` can never
collide with obstacles at `x = 100` of width `50`, whatever the vertical
positions. -/
theorem c2_collision_characterisation (p : Plane) (l : List Obstacle) (sc : ℕ) :
    ((checkCollisionAux p l sc).2.2 = true ↔
      ∃ o ∈ l, (p.x + p.width > o.x ∧ p.x < o.x + o.width) ∧
        (p.y < o.topHeight ∨ p.y + p.height > o.bottomY)) ∧
    (∀ (o : Obstacle) (rest : List Obstacle),
      ((p.x + p.width > o.x ∧ p.x < o.x + o.width) ∧
        (p.y < o.topHeight ∨ p.y + p.height > o.bottomY)) →
      checkCollisionAux p (o :: rest) sc = (o :: rest, sc, true)) ∧
    (∀ s : GState, (checkCollisionAux s.plane s.obstacles s.score).2.2 = true →
      (checkCollision s).isGameOver = true) ∧
    (p.x = 50 → p.width = 40 → (∀ o ∈ l, o.x = 100 ∧ o.width = 50) →
      (checkCollisionAux p l sc).2.2 = false) := by
  refine ⟨checkCollisionAux_collided_iff p l sc, ?_, ?_, ?_⟩
  · intro o rest h
    simp [checkCollisionAux, if_pos h]
  · intro s h
    unfold checkCollision
    dsimp only
    rw [if_pos h]
    exact gameOver_isGameOver _
  · intro hx hw hall
    rw [Bool.eq_false_iff]
    intro hc
    rcases (checkCollisionAux_collided_iff p l sc).mp hc with ⟨o, ho, hcol, _⟩
    rcases hall o ho with ⟨hox, how⟩
    rw [hx, hw, hox] at hcol
    norm_num at hcol

/-- Witness for C2: a plane at `x = 50`, width `40` against an obstacle at
`x = 100`, width `50` that fills the whole screen vertically still reports no
collision. -/
theorem c2_collision_characterisation_witness :
    (checkCollisionAux Plane.init
      [{ x := 100, width := 50, passed := false, topHeight := 600,
         bottomY := 0, bottomHeight := 0 }] 0).2.2 = false := by
  apply (c2_collision_characterisation Plane.init _ 0).2.2.2 rfl rfl
  intro o ho
  simp only [List.mem_singleton] at ho
  rw [ho]
  exact ⟨rfl, rfl⟩

/-! ### C4 -/

/-- One frame's effect on a single obstacle and the score: the obstacle's
movement from the `update()` loop followed by the scoring branch of
`checkCollision()`. -/
def frameScore (p : Plane) (os : Obstacle × ℕ) : Obstacle × ℕ :=
  scoreStep p (Obstacle.update os.1) os.2

theorem frameScore_iter (p : Plane) (o : Obstacle) (sc n : ℕ)
    (h : o.passed = false) :
    ((frameScore p)^[n] (o, sc)).1.x = o.x - PIPE_SPEED * n ∧
    ((frameScore p)^[n] (o, sc)).1.width = o.width ∧
    (((frameScore p)^[n] (o, sc)).1.passed = true ↔
      0 < n ∧ p.x > o.x - PIPE_SPEED * n + o.width) ∧
    ((frameScore p)^[n] (o, sc)).2 =
      sc + (if ((frameScore p)^[n] (o, sc)).1.passed then 1 else 0) := by
  induction n with
  | zero => simp [h]
  | succ n ih =>
    obtain ⟨ihx, ihw, ihp, ihs⟩ := ih
    rw [Function.iterate_succ_apply'] at *
    set r := (frameScore p)^[n] (o, sc) with hr
    have hstep : frameScore p r = scoreStep p (Obstacle.update r.1) r.2 := rfl
    have hux : (Obstacle.update r.1).x = o.x - PIPE_SPEED * ((n + 1 : ℕ) : ℚ) := by
      show r.1.x - PIPE_SPEED = _
      rw [ihx]
      push_cast
      ring
    have huw : (Obstacle.update r.1).width = o.width := ihw
    have hup : (Obstacle.update r.1).passed = r.1.passed := rfl
    have hPS : PIPE_SPEED = (3 : ℚ) := rfl
    by_cases hp : r.1.passed = true
    · have hcond : ¬ (p.x > (Obstacle.update r.1).x + (Obstacle.update r.1).width ∧
          (Obstacle.update r.1).passed = false) := by
        rw [hup, hp]
        rintro ⟨-, habs⟩
        cases habs
      rw [hstep]
      unfold scoreStep
      rw [if_neg hcond]
      obtain ⟨hn, hcol⟩ := ihp.mp hp
      refine ⟨hux, huw, ?_, ?_⟩
      · show r.1.update.passed = true ↔ _
        rw [hup, hp]
        simp only [true_iff]
        refine ⟨Nat.succ_pos n, ?_⟩
        rw [hPS] at *
        push_cast at *
        linarith
      · show r.2 = sc + (if r.1.update.passed then 1 else 0)
        rw [hup, hp, ihs, hp]
    · have hpf : r.1.passed = false := by
        cases hres : r.1.passed
        · rfl
        · exact absurd hres hp
      by_cases hfire : p.x > (Obstacle.update r.1).x + (Obstacle.update r.1).width
      · have hcond : p.x > (Obstacle.update r.1).x + (Obstacle.update r.1).width ∧
            (Obstacle.update r.1).passed = false := ⟨hfire, by rw [hup, hpf]⟩
        rw [hstep]
        unfold scoreStep
        rw [if_pos hcond]
        rw [hux, huw] at hfire
        refine ⟨hux, huw, ?_, ?_⟩
        · simp only [true_iff]
          exact ⟨Nat.succ_pos n, hfire⟩
        · show r.2 + 1 = sc + (if true then 1 else 0)
          rw [ihs, hpf]
          simp
      · have hcond : ¬ (p.x > (Obstacle.update r.1).x + (Obstacle.update r.1).width ∧
            (Obstacle.update r.1).passed = false) := fun habs => hfire habs.1
        rw [hstep]
        unfold scoreStep
        rw [if_neg hcond]
        rw [hux, huw] at hfire
        refine ⟨hux, huw, ?_, ?_⟩
        · show r.1.update.passed = true ↔ _
          rw [hup, hpf]
          simp only [Bool.false_eq_true, false_iff]
          rintro ⟨-, habs⟩
          exact hfire habs
        · show r.2 = sc + (if r.1.update.passed then 1 else 0)
          rw [hup, hpf, ihs, hpf]

/-- C4: starting from an unpassed obstacle, over any number of frames (the
obstacle moving left by `PIPE_SPEED` each frame, then the scoring branch
running), the `passed` flag is set exactly when the plane's leading edge has
passed the obstacle's trailing edge — i.e. on the first frame with
`p.x > obs.x + obs.width`, which by monotone movement is expressible at frame
`n` — and the score has increased by exactly `1` if the flag was set and by
`0` otherwise; no further frame increments it again. -/
theorem c4_scored_at_most_once (p : Plane) (o : Obstacle) (sc n : ℕ)
    (h : o.passed = false) :
    ((frameScore p)^[n] (o, sc)).2 =
      sc + (if ((frameScore p)^[n] (o, sc)).1.passed then 1 else 0) ∧
    (((frameScore p)^[n] (o, sc)).1.passed = true ↔
      0 < n ∧ p.x > o.x - PIPE_SPEED * n + o.width) :=
  ⟨(frameScore_iter p o sc n h).2.2.2, (frameScore_iter p o sc n h).2.2.1⟩

/-- The obstacle used by the C4 witness: just past the plane, unpassed. -/
def c4WitnessObstacle : Obstacle :=
  { x := 0, width := 50, passed := false, topHeight := 100,
    bottomY := 240, bottomHeight := 330 }

/-- Witness for C4: an obstacle already just past the plane scores exactly one
point on the next frame. -/
theorem c4_scored_at_most_once_witness :
    ((frameScore Plane.init)^[1] (c4WitnessObstacle, 5)).2 = 5 + 1 := by
  have h := c4_scored_at_most_once Plane.init c4WitnessObstacle 5 1 rfl
  have hp : ((frameScore Plane.init)^[1] (c4WitnessObstacle, 5)).1.passed = true := by
    apply h.2.mpr
    refine ⟨Nat.one_pos, ?_⟩
    show (50 : ℚ) > 0 - PIPE_SPEED * (1 : ℕ) + 50
    norm_num [PIPE_SPEED]
  rw [h.1, hp]
  norm_num

/-! ### C1 -/

/-- A pre-game-over state with a global stored best of 20, a per-player stored
best of 10, and a final score of 15 (a situation produced by one player
holding the global record while another plays). -/
def bestScoreCex : GState :=
  { plane := Plane.init, obstacles := [], score := 15, bestScore := 20,
    storedBest := 20, storedPlayerBest := 10, isGameOver := false,
    frameCount := 0, writes := 0 }

/-- Counterexample to C1 as stated: entering GameOver with score 15, global
stored best 20 and per-player stored best 10 leaves the per-player stored best
at 10, not `max 10 15 = 15`, because the code gates both writes on the global
best only. -/
theorem c1_counterexample :
    (gameOver bestScoreCex).storedPlayerBest ≠
      max bestScoreCex.storedPlayerBest bestScoreCex.score := by decide

/-- C1 (amended): on entering GameOver from a run (with the in-memory best
equal to the global stored best, as the code maintains), the global stored
best becomes `max` of its previous value and the final score — hence never
decreases — while the per-player stored best is overwritten with the final
score exactly when the score exceeds the *global* stored best and is left
unchanged otherwise; it therefore never decreases provided it does not exceed
the global stored best, and both keys are written (once each) exactly when the
score exceeds the global stored best. -/
theorem c1_best_scores (s : GState) (hrun : s.isGameOver = false)
    (hmem : s.bestScore = s.storedBest) :
    (gameOver s).isGameOver = true ∧
    (gameOver s).storedBest = max s.storedBest s.score ∧
    s.storedBest ≤ (gameOver s).storedBest ∧
    (gameOver s).bestScore = max s.bestScore s.score ∧
    (gameOver s).storedPlayerBest =
      (if s.storedBest < s.score then s.score else s.storedPlayerBest) ∧
    (s.storedPlayerBest ≤ s.storedBest →
      s.storedPlayerBest ≤ (gameOver s).storedPlayerBest) ∧
    (gameOver s).writes = s.writes + (if s.storedBest < s.score then 2 else 0) := by
  unfold gameOver
  rw [hrun]
  rw [if_neg (by simp : ¬ (false = true))]
  dsimp only
  rw [hmem]
  split_ifs with h
  · exact ⟨rfl, (max_eq_right (le_of_lt h)).symm, le_of_lt h,
      (max_eq_right (le_of_lt h)).symm,
      rfl, fun hle => le_of_lt (lt_of_le_of_lt hle h), rfl⟩
  · exact ⟨rfl, (max_eq_left (not_lt.mp h)).symm, le_refl _,
      (max_eq_left (not_lt.mp h)).symm,
      rfl, fun hle => le_refl _, rfl⟩

/-- Witness for C1 (amended) at the concrete state `bestScoreCex`. -/
theorem c1_best_scores_witness :
    (gameOver bestScoreCex).storedBest =
      max bestScoreCex.storedBest bestScoreCex.score ∧
    (gameOver bestScoreCex).storedPlayerBest =
      (if bestScoreCex.storedBest < bestScoreCex.score then bestScoreCex.score
       else bestScoreCex.storedPlayerBest) :=
  ⟨(c1_best_scores bestScoreCex rfl rfl).2.1,
   (c1_best_scores bestScoreCex rfl rfl).2.2.2.2.1⟩

/-! ### C10: the obstacle list never holds more than two obstacles

The obstacle dynamics (spawn every `PIPE_SPAWN_INTERVAL` frames at
`x = CANVAS_WIDTH`, move left by `PIPE_SPEED`, remove when
`x + PIPE_WIDTH < 0`) depend only on the frame counter, so the list of
x-positions after `n` running frames is the deterministic sequence `obsXs n`
below; its closed form shows at most two spawn times can be live at once. -/

/-- One frame of the obstacle-list dynamics projected to x-positions, at frame
counter `n`: spawn (when due), move left, drop fully off-screen entries. -/
def obsStep (n : ℕ) (xs : List ℚ) : List ℚ :=
  ((if n % PIPE_SPAWN_INTERVAL = 0 then xs ++ [CANVAS_WIDTH] else xs).map
    (fun x => x - PIPE_SPEED)).filter (fun x => !decide (x + PIPE_WIDTH < 0))

/-- The x-positions of the live obstacles after `n` running frames since a
restart. -/
def obsXs : ℕ → List ℚ
  | 0 => []
  | n + 1 => obsStep n (obsXs n)

/-- The spawn frames of the obstacles still live after `n` frames: multiples
of the spawn interval that are at most 150 update-frames old (an obstacle
spawned at frame `t` has, after frame `n`, position
`CANVAS_WIDTH - PIPE_SPEED * (n - t)` and survives while that is `≥
-PIPE_WIDTH`, i.e. while `n ≤ t + 150`). -/
def spawnTimes (n : ℕ) : List ℕ :=
  (List.range n).filter
    (fun t => decide (t % PIPE_SPAWN_INTERVAL = 0 ∧ n ≤ t + 150))

/-- The x-position after frame `n` of an obstacle spawned at frame `t`. -/
def obsPos (n t : ℕ) : ℚ := CANVAS_WIDTH - PIPE_SPEED * ((n : ℚ) - (t : ℚ))

theorem filter_comm_map {α β : Type} (f : α → β) (p : β → Bool) (l : List α) :
    (l.map f).filter p = (l.filter (fun a => p (f a))).map f := by
  induction l with
  | nil => rfl
  | cons a t ih =>
    simp only [List.map_cons, List.filter_cons]
    cases hb : p (f a) with
    | false => simpa [hb] using ih
    | true => simpa [hb] using ih

theorem obsXs_eq (n : ℕ) : obsXs n = (spawnTimes n).map (obsPos n) := by
  induction n with
  | zero => rfl
  | succ n ih =>
    have hPS : PIPE_SPEED = (3 : ℚ) := rfl
    have hCW : CANVAS_WIDTH = (400 : ℚ) := rfl
    have hPW : PIPE_WIDTH = (50 : ℚ) := rfl
    have hshift : ∀ t : ℕ, obsPos n t - PIPE_SPEED = obsPos (n + 1) t := by
      intro t
      unfold obsPos
      push_cast
      ring
    have hkeep : ∀ t : ℕ,
        (!decide (obsPos (n + 1) t + PIPE_WIDTH < 0)) =
          decide (n + 1 ≤ t + 150) := by
      intro t
      rw [show (!decide (obsPos (n + 1) t + PIPE_WIDTH < 0)) =
            decide (¬ (obsPos (n + 1) t + PIPE_WIDTH < 0)) from (decide_not).symm]
      rw [decide_eq_decide]
      rw [not_lt]
      unfold obsPos
      rw [hPS, hCW, hPW]
      constructor
      · intro hq
        push_cast at hq
        have h2 : ((n + 1 : ℕ) : ℚ) ≤ ((t + 150 : ℕ) : ℚ) := by push_cast; linarith
        exact_mod_cast h2
      · intro hn
        have h2 : ((n + 1 : ℕ) : ℚ) ≤ ((t + 150 : ℕ) : ℚ) := by exact_mod_cast hn
        push_cast at h2 ⊢
        linarith
    have hmain : ∀ (B : List ℚ) (S : List ℕ), B = S.map (obsPos n) →
        (B.map (fun x => x - PIPE_SPEED)).filter
            (fun x => !decide (x + PIPE_WIDTH < 0)) =
          (S.filter (fun t => decide (n + 1 ≤ t + 150))).map (obsPos (n + 1)) := by
      intro B S hB
      rw [hB, List.map_map]
      rw [show ((fun x => x - PIPE_SPEED) ∘ obsPos n) = obsPos (n + 1) from
        funext fun t => hshift t]
      rw [filter_comm_map]
      congr 1
      apply List.filter_congr
      intro t ht
      exact hkeep t
    have hsplit : spawnTimes (n + 1) =
        (spawnTimes n).filter (fun t => decide (n + 1 ≤ t + 150)) ++
          (if n % PIPE_SPAWN_INTERVAL = 0 then [n] else []) := by
      have hI : PIPE_SPAWN_INTERVAL = 90 := rfl
      unfold spawnTimes
      rw [List.range_succ, List.filter_append, List.filter_filter]
      congr 1
      · apply List.filter_congr
        intro t ht
        rw [show ∀ P Q : Prop, ∀ inst1 : Decidable P, ∀ inst2 : Decidable Q,
              (decide P && decide Q) = decide (P ∧ Q) from
            fun P Q inst1 inst2 => (Bool.decide_and P Q).symm]
        rw [decide_eq_decide, hI]
        omega
      · by_cases hsp : n % PIPE_SPAWN_INTERVAL = 0
        · simp only [hsp, if_true, List.filter_cons, List.filter_nil]
          rw [if_pos]
          rw [decide_eq_true_eq]
          exact ⟨trivial, by omega⟩
        · simp only [hsp, if_false, List.filter_cons, List.filter_nil]
          rw [if_neg]
          rw [decide_eq_true_eq]
          simp
    show obsStep n (obsXs n) = _
    unfold obsStep
    rw [hsplit, List.map_append]
    by_cases hsp : n % PIPE_SPAWN_INTERVAL = 0
    · rw [if_pos hsp, if_pos hsp]
      rw [List.map_append, List.filter_append]
      rw [hmain (obsXs n) (spawnTimes n) ih]
      congr 1
      show List.filter _ [CANVAS_WIDTH - PIPE_SPEED] = [obsPos (n + 1) n]
      have hval : CANVAS_WIDTH - PIPE_SPEED = obsPos (n + 1) n := by
        unfold obsPos
        push_cast
        ring
      rw [hval, List.filter_cons, List.filter_nil]
      rw [if_pos]
      rw [hkeep n, decide_eq_true_eq]
      omega
    · rw [if_neg hsp, if_neg hsp, List.map_nil, List.append_nil]
      exact hmain (obsXs n) (spawnTimes n) ih

theorem spawn_window_length (n : ℕ) (l : List ℕ) (hpw : l.Pairwise (· < ·))
    (hall : ∀ t ∈ l, t % PIPE_SPAWN_INTERVAL = 0 ∧ n ≤ t + 150 ∧ t < n) :
    l.length ≤ 2 := by
  have hI : PIPE_SPAWN_INTERVAL = 90 := rfl
  rcases l with - | ⟨a, l⟩
  · simp
  rcases l with - | ⟨b, l⟩
  · simp
  rcases l with - | ⟨c, l⟩
  · simp
  exfalso
  simp only [List.pairwise_cons] at hpw
  obtain ⟨ha, hb, -⟩ := hpw
  have hab : a < b := ha b (by simp)
  have hbc : b < c := hb c (by simp)
  obtain ⟨ha90, han, -⟩ := hall a (by simp)
  obtain ⟨hb90, -, -⟩ := hall b (by simp)
  obtain ⟨hc90, -, hcn⟩ := hall c (by simp)
  rw [hI] at ha90 hb90 hc90
  omega

theorem spawnTimes_length_le (n : ℕ) : (spawnTimes n).length ≤ 2 := by
  apply spawn_window_length n
  · exact (List.pairwise_lt_range n).filter _
  · intro t ht
    unfold spawnTimes at ht
    rw [List.mem_filter] at ht
    obtain ⟨hr, hp⟩ := ht
    rw [List.mem_range] at hr
    rw [decide_eq_true_eq] at hp
    exact ⟨hp.1, hp.2, hr⟩

theorem obsXs_length_le (n : ℕ) : (obsXs n).length ≤ 2 := by
  rw [obsXs_eq, List.length_map]
  exact spawnTimes_length_le n

theorem scoreStep_x (p : Plane) (o : Obstacle) (sc : ℕ) :
    (scoreStep p o sc).1.x = o.x := by
  unfold scoreStep
  split_ifs <;> rfl

theorem scoreStep_width (p : Plane) (o : Obstacle) (sc : ℕ) :
    (scoreStep p o sc).1.width = o.width := by
  unfold scoreStep
  split_ifs <;> rfl

theorem checkCollisionAux_map_x (p : Plane) (l : List Obstacle) (sc : ℕ) :
    ((checkCollisionAux p l sc).1).map (fun o => o.x) = l.map (fun o => o.x) := by
  induction l generalizing sc with
  | nil => rfl
  | cons o rest ih =>
    unfold checkCollisionAux
    split_ifs with h
    · rfl
    · dsimp only
      rw [List.map_cons, List.map_cons, scoreStep_x, ih]

theorem checkCollisionAux_map_width (p : Plane) (l : List Obstacle) (sc : ℕ) :
    ((checkCollisionAux p l sc).1).map (fun o => o.width) =
      l.map (fun o => o.width) := by
  induction l generalizing sc with
  | nil => rfl
  | cons o rest ih =>
    unfold checkCollisionAux
    split_ifs with h
    · rfl
    · dsimp only
      rw [List.map_cons, List.map_cons, scoreStep_width, ih]

theorem all_width_of_map_eq {l1 l2 : List Obstacle}
    (h : l1.map (fun o => o.width) = l2.map (fun o => o.width))
    (h2 : ∀ o ∈ l2, o.width = PIPE_WIDTH) : ∀ o ∈ l1, o.width = PIPE_WIDTH := by
  intro o ho
  have hmem : o.width ∈ l1.map (fun o => o.width) := List.mem_map_of_mem _ ho
  rw [h] at hmem
  rcases List.mem_map.mp hmem with ⟨o2, ho2, he⟩
  rw [← he]
  exact h2 o2 ho2

theorem checkCollision_map_x (s : GState) :
    (checkCollision s).obstacles.map (fun o => o.x) =
      s.obstacles.map (fun o => o.x) := by
  unfold checkCollision
  dsimp only
  split_ifs
  · rw [gameOver_obstacles]
    exact checkCollisionAux_map_x _ _ _
  · exact checkCollisionAux_map_x _ _ _

theorem checkCollision_map_width (s : GState) :
    (checkCollision s).obstacles.map (fun o => o.width) =
      s.obstacles.map (fun o => o.width) := by
  unfold checkCollision
  dsimp only
  split_ifs
  · rw [gameOver_obstacles]
    exact checkCollisionAux_map_width _ _ _
  · exact checkCollisionAux_map_width _ _ _

theorem checkCollision_frameCount (s : GState) :
    (checkCollision s).frameCount = s.frameCount := by
  unfold checkCollision
  dsimp only
  split_ifs
  · rw [gameOver_frameCount]
  · rfl

theorem tickPlane_obstacles (s : GState) :
    (tickPlane s).obstacles = s.obstacles := by
  unfold tickPlane
  dsimp only
  split_ifs
  · rw [gameOver_obstacles]
  · rfl

theorem tickPlane_frameCount (s : GState) :
    (tickPlane s).frameCount = s.frameCount := by
  unfold tickPlane
  dsimp only
  split_ifs
  · rw [gameOver_frameCount]
  · rfl

theorem spawnStep_frameCount (rnd : ℚ) (s : GState) :
    (spawnStep rnd s).frameCount = s.frameCount := by
  unfold spawnStep
  split_ifs <;> rfl

theorem spawnStep_obstacles (rnd : ℚ) (s : GState) :
    (spawnStep rnd s).obstacles =
      (if s.frameCount % PIPE_SPAWN_INTERVAL = 0 then
        s.obstacles ++ [mkObstacle rnd] else s.obstacles) := by
  unfold spawnStep
  split_ifs <;> rfl

theorem move_proj (l : List Obstacle) (hw : ∀ o ∈ l, o.width = PIPE_WIDTH) :
    ((l.map Obstacle.update).filter
        (fun o => !decide (o.x + o.width < 0))).map (fun o => o.x) =
      ((l.map (fun o => o.x)).map (fun x => x - PIPE_SPEED)).filter
        (fun x => !decide (x + PIPE_WIDTH < 0)) := by
  induction l with
  | nil => rfl
  | cons o t ih =>
    have hwo : o.width = PIPE_WIDTH := hw o (by simp)
    have iht := ih (fun o' ho' => hw o' (by simp [ho']))
    simp only [List.map_cons, List.filter_cons]
    have hcond : (!decide ((Obstacle.update o).x + (Obstacle.update o).width < 0)) =
        (!decide ((o.x - PIPE_SPEED) + PIPE_WIDTH < 0)) := by
      show (!decide ((o.x - PIPE_SPEED) + o.width < 0)) = _
      rw [hwo]
    rw [hcond]
    cases hb : (!decide ((o.x - PIPE_SPEED) + PIPE_WIDTH < 0)) with
    | false => simpa [hb] using iht
    | true =>
      simp only [hb, if_true]
      rw [List.map_cons, iht]
      rfl

theorem move_width (l : List Obstacle) (hw : ∀ o ∈ l, o.width = PIPE_WIDTH) :
    ∀ o' ∈ (l.map Obstacle.update).filter
        (fun o => !decide (o.x + o.width < 0)), o'.width = PIPE_WIDTH := by
  intro o' ho'
  rw [List.mem_filter] at ho'
  rcases List.mem_map.mp ho'.1 with ⟨o, ho, he⟩
  rw [← he]
  show o.width = PIPE_WIDTH
  exact hw o ho

/-- The inductive invariant for C10: the x-positions of the live obstacles are
exactly the deterministic sequence `obsXs frameCount`, and every live obstacle
has the standard pipe width. -/
def Inv (s : GState) : Prop :=
  s.obstacles.map (fun o => o.x) = obsXs s.frameCount ∧
  ∀ o ∈ s.obstacles, o.width = PIPE_WIDTH

theorem Inv_startGame (s : GState) : Inv (startGame s) := by
  constructor
  · rfl
  · intro o ho
    simp [startGame, setup] at ho

theorem Inv_handleInput (s : GState) (h : Inv s) : Inv (handleInput s) := by
  unfold handleInput
  split_ifs with hgo
  · exact Inv_startGame s
  · exact h

theorem Inv_update (rnd : ℚ) (s : GState) (h : Inv s) : Inv (update rnd s) := by
  unfold update
  split_ifs with hgo
  · exact h
  · obtain ⟨hx, hw⟩ := h
    have ht1o : (tickPlane s).obstacles = s.obstacles := tickPlane_obstacles s
    have ht1f : (tickPlane s).frameCount = s.frameCount := tickPlane_frameCount s
    have ht2o : (spawnStep rnd (tickPlane s)).obstacles =
        (if s.frameCount % PIPE_SPAWN_INTERVAL = 0 then
          s.obstacles ++ [mkObstacle rnd] else s.obstacles) := by
      rw [spawnStep_obstacles, ht1o, ht1f]
    have ht2f : (spawnStep rnd (tickPlane s)).frameCount = s.frameCount := by
      rw [spawnStep_frameCount, ht1f]
    have ht3o : (incFrame (spawnStep rnd (tickPlane s))).obstacles =
        (spawnStep rnd (tickPlane s)).obstacles := rfl
    have ht3f : (incFrame (spawnStep rnd (tickPlane s))).frameCount =
        s.frameCount + 1 := by
      show (spawnStep rnd (tickPlane s)).frameCount + 1 = _
      rw [ht2f]
    -- widths of the spawned list
    have hw2 : ∀ o ∈ (spawnStep rnd (tickPlane s)).obstacles,
        o.width = PIPE_WIDTH := by
      rw [ht2o]
      split_ifs with hsp
      · intro o ho
        rcases List.mem_append.mp ho with ho | ho
        · exact hw o ho
        · rw [List.mem_singleton.mp ho]
          rfl
      · exact hw
    -- spawned projection
    have hx2 : (spawnStep rnd (tickPlane s)).obstacles.map (fun o => o.x) =
        (if s.frameCount % PIPE_SPAWN_INTERVAL = 0 then
          (s.obstacles.map (fun o => o.x)) ++ [CANVAS_WIDTH]
        else s.obstacles.map (fun o => o.x)) := by
      rw [ht2o]
      split_ifs with hsp
      · rw [List.map_append]
        rfl
      · rfl
    constructor
    · rw [checkCollision_map_x, checkCollision_frameCount]
      show (moveObstacles (incFrame (spawnStep rnd (tickPlane s)))).obstacles.map
            (fun o => o.x) =
          obsXs ((moveObstacles (incFrame (spawnStep rnd (tickPlane s)))).frameCount)
      have hmf : (moveObstacles (incFrame (spawnStep rnd (tickPlane s)))).frameCount =
          s.frameCount + 1 := ht3f
      rw [hmf]
      show (((incFrame (spawnStep rnd (tickPlane s))).obstacles.map
              Obstacle.update).filter
            (fun o => !decide (o.x + o.width < 0))).map (fun o => o.x) = _
      rw [ht3o]
      rw [move_proj _ hw2]
      rw [hx2]
      show _ = obsStep s.frameCount (obsXs s.frameCount)
      unfold obsStep
      rw [← hx]
    · apply all_width_of_map_eq (checkCollision_map_width _)
      show ∀ o ∈ ((incFrame (spawnStep rnd (tickPlane s))).obstacles.map
            Obstacle.update).filter (fun o => !decide (o.x + o.width < 0)),
          o.width = PIPE_WIDTH
      rw [ht3o]
      exact move_width _ hw2

theorem Reach_Inv (s : GState) (h : Reach s) : Inv s := by
  induction h with
  | start s => exact Inv_startGame s
  | frame rnd hs ih => exact Inv_update rnd _ ih
  | input hs ih => exact Inv_handleInput _ ih

/-- C10: in every state reachable from a start/restart by per-frame updates
and inputs, the obstacle list holds at most two obstacles (with a spawn every
90 frames and removal after at most 151 updates, a third obstacle can never be
live concurrently). -/
theorem c10_at_most_two_obstacles (s : GState) (h : Reach s) :
    s.obstacles.length ≤ 2 := by
  have hx := (Reach_Inv s h).1
  have hlen := congrArg List.length hx
  rw [List.length_map] at hlen
  rw [hlen]
  exact obsXs_length_le _

/-- Witness for C10 at the state reached by a restart from the page-load
state. -/
theorem c10_at_most_two_obstacles_witness :
    (startGame (initState 0 0)).obstacles.length ≤ 2 :=
  c10_at_most_two_obstacles _ (Reach.start (initState 0 0))

end FlappyPlane
